import Mathlib

/-!
# Execution engine bridge and consolidation-request decoding

A shallow embedding of `execution/client/engine.go` (the four engine-API
operations of `EngineClient`) and of the length validation in
`consensus-types/types/consolidation_request.go`.

Stateful code is written in state-passing style: every operation takes the
client state and returns its Go result pair together with the new state.
The state holds what the operations touch: the capability map, the logger
output, the timeout counters and duration samples of the metrics, and a
record of the calls made to the two helpers of the package that live outside
these files (`handleRPCError`, `processPayloadStatusResult`).

The transport (`s.Client`) is an external collaborator: its reply to a call is
an argument of the operation. Contexts, deadlines and wall-clock durations are
not modelled.
-/

namespace BeaconKit

/-! ## Go errors -/

/-- Modelled from the spec: the package `engine-primitives/errors` is not among
the sources; the sentinel errors that `engine.go` names are distinct values
("specific, distinguishable error values"). `errorf` is an error built by
`fmt.Errorf` (format string and numeric arguments), `jsonrpc` a structured
error reported by the remote engine (code and message), `other` any further
error value, `wrap` an error wrapping a cause. -/
inductive GoError where
  | ErrEngineAPITimeout
  | ErrNilPayloadStatus
  | ErrNilForkchoiceResponse
  | ErrNilExecutionPayloadEnvelope
  | ErrNilBlobsBundle
  | errorf (format : String) (args : List Nat)
  | jsonrpc (code : Int) (message : String)
  | other (msg : String)
  | wrap (msg : String) (cause : GoError)
  deriving DecidableEq, Repr

/-- The matching of `errors.Is(err, target)`: `err` or an error in its chain of
causes equals `target`. -/
def errorsIs : GoError → GoError → Bool
  | .wrap msg cause, target =>
      decide (GoError.wrap msg cause = target) || errorsIs cause target
  | err, target => decide (err = target)

/-! ## Engine API data -/

abbrev Byte := UInt8

structure ExecutionHash where
  bytes : List Byte
  deriving DecidableEq, Repr

structure PayloadID where
  bytes : List Byte
  deriving DecidableEq, Repr

/-- The 20-byte execution address. -/
abbrev ExecutionAddress := List Byte

/-- The zero value `common.ExecutionAddress{}`. -/
def zeroExecutionAddress : ExecutionAddress := List.replicate 20 0

/-- Modelled from the spec: `engineprimitives.PayloadStatusV1` is not among
the sources; spec section 3 gives the status values `Valid`, `Invalid`,
`Syncing`, `Accepted`, and section 4.2 allows any other value. -/
inductive PayloadStatusStr where
  | valid
  | invalid
  | syncing
  | accepted
  | unknown (s : String)
  deriving DecidableEq, Repr

structure PayloadStatusV1 where
  Status : PayloadStatusStr
  LatestValidHash : Option ExecutionHash
  ValidationError : Option String
  deriving DecidableEq, Repr

structure ForkchoiceResponseV1 where
  PayloadStatus : PayloadStatusV1
  PayloadID : Option PayloadID
  deriving DecidableEq, Repr

structure PayloadAttributes where
  Timestamp : Nat
  SuggestedFeeRecipient : ExecutionAddress
  deriving DecidableEq, Repr

structure BlobsBundle where
  blobs : List (List Byte)
  deriving DecidableEq, Repr

/-- The built payload envelope; `GetBlobsBundle` may return nil. -/
structure BuiltExecutionPayloadEnv where
  executionPayload : List Byte
  blobsBundle : Option BlobsBundle
  deriving DecidableEq, Repr

def BuiltExecutionPayloadEnv.GetBlobsBundle (e : BuiltExecutionPayloadEnv) :
    Option BlobsBundle := e.blobsBundle

/-! ## Client state -/

inductive LogLevel where
  | info
  | warn
  | error
  deriving DecidableEq, Repr

inductive LogValue where
  | str (s : String)
  | address (a : ExecutionAddress)
  | err (e : GoError)
  deriving DecidableEq, Repr

/-- One call of the structured logger: level, message, one key/value pair. -/
structure LogEntry where
  level : LogLevel
  msg : String
  key : String
  value : LogValue
  deriving DecidableEq, Repr

/-- The three operations that run under the per-call timeout. -/
inductive Op where
  | newPayload
  | forkchoiceUpdate
  | getPayload
  deriving DecidableEq, Repr

/-- Modelled from the spec: the metrics type is not among the sources; by
spec section 6 it offers a timeout counter per operation and a duration
histogram per operation. An increment adds one to the counter; a duration
measurement adds one sample (the measured time is not modelled). -/
structure Metrics where
  newPayloadTimeout : Nat
  forkchoiceUpdateTimeout : Nat
  getPayloadTimeout : Nat
  durations : List Op
  deriving DecidableEq, Repr

def Metrics.incrementNewPayloadTimeout (m : Metrics) : Metrics :=
  { m with newPayloadTimeout := m.newPayloadTimeout + 1 }

def Metrics.incrementForkchoiceUpdateTimeout (m : Metrics) : Metrics :=
  { m with forkchoiceUpdateTimeout := m.forkchoiceUpdateTimeout + 1 }

def Metrics.incrementGetPayloadTimeout (m : Metrics) : Metrics :=
  { m with getPayloadTimeout := m.getPayloadTimeout + 1 }

def Metrics.measureNewPayloadDuration (m : Metrics) : Metrics :=
  { m with durations := m.durations ++ [Op.newPayload] }

def Metrics.measureForkchoiceUpdateDuration (m : Metrics) : Metrics :=
  { m with durations := m.durations ++ [Op.forkchoiceUpdate] }

def Metrics.measureGetPayloadDuration (m : Metrics) : Metrics :=
  { m with durations := m.durations ++ [Op.getPayload] }

/-- A call to one of the two helpers of the package that are defined outside
`engine.go`. -/
inductive HelperCall where
  | handleRPCError (err : GoError)
  | processPayloadStatusResult (result : PayloadStatusV1)
  deriving DecidableEq, Repr

/-- The part of `EngineClient` the four operations read and write.
`capabilities` holds the keys of the Go map `map[string]struct{}`. -/
structure EngineClient where
  capabilities : List String
  logger : List LogEntry
  metrics : Metrics
  calls : List HelperCall
  deriving DecidableEq, Repr

/-- The helpers of the package that are defined outside `engine.go`, taken as
parameters: the transport-error classifier, the payload status processor and
the list of locally supported capabilities. A nil `error` is `none`. -/
structure Helpers where
  handleRPCError : GoError → Option GoError
  processPayloadStatusResult : PayloadStatusV1 → Option ExecutionHash × Option GoError
  BeaconKitSupportedCapabilities : List String

def EngineClient.logInfo (s : EngineClient) (msg key : String) (v : LogValue) :
    EngineClient :=
  { s with logger := s.logger ++ [⟨LogLevel.info, msg, key, v⟩] }

def EngineClient.logWarn (s : EngineClient) (msg key : String) (v : LogValue) :
    EngineClient :=
  { s with logger := s.logger ++ [⟨LogLevel.warn, msg, key, v⟩] }

def EngineClient.logError (s : EngineClient) (msg key : String) (v : LogValue) :
    EngineClient :=
  { s with logger := s.logger ++ [⟨LogLevel.error, msg, key, v⟩] }

/-- Running `s.handleRPCError(err)`: the call is recorded, the result is the
classifier's. -/
def EngineClient.runHandleRPCError (h : Helpers) (s : EngineClient) (err : GoError) :
    Option GoError × EngineClient :=
  (h.handleRPCError err, { s with calls := s.calls ++ [HelperCall.handleRPCError err] })

/-- Running `processPayloadStatusResult(result)`: the call is recorded, the
result is the processor's. -/
def EngineClient.runProcessPayloadStatusResult (h : Helpers) (s : EngineClient)
    (result : PayloadStatusV1) :
    (Option ExecutionHash × Option GoError) × EngineClient :=
  (h.processPayloadStatusResult result,
    { s with calls := s.calls ++ [HelperCall.processPayloadStatusResult result] })

/-- Modelled from the spec: `EngineClient.HasCapability` is not among the
sources; by spec section 4.4 it answers "does the remote support capability
X" from the registry, i.e. whether the key is in the capability map. -/
def EngineClient.HasCapability (s : EngineClient) (capability : String) : Bool :=
  decide (capability ∈ s.capabilities)

/-- The map store `s.capabilities[capability] = struct{}{}`. -/
def EngineClient.setCapability (s : EngineClient) (capability : String) :
    EngineClient :=
  { s with capabilities := s.capabilities.insert capability }

/-! ## The four operations of `engine.go` -/

/-- `EngineClient.NewPayload`; `reply` is what `s.Client.NewPayload(cctx, req)`
returned. The deferred duration measurement runs on every path. -/
def EngineClient.NewPayload (h : Helpers) (s : EngineClient)
    (reply : Option PayloadStatusV1 × Option GoError) :
    (Option ExecutionHash × Option GoError) × EngineClient :=
  let done := fun (t : EngineClient) =>
    { t with metrics := t.metrics.measureNewPayloadDuration }
  match reply with
  | (_, some err) =>
      let s1 := if errorsIs err GoError.ErrEngineAPITimeout
        then { s with metrics := s.metrics.incrementNewPayloadTimeout } else s
      let r := s1.runHandleRPCError h err
      ((none, r.1), done r.2)
  | (none, none) => ((none, some GoError.ErrNilPayloadStatus), done s)
  | (some result, none) =>
      let s1 := match result.ValidationError with
        | some validationErr =>
            s.logError "Got a validation error in newPayload" "err"
              (LogValue.err (GoError.other validationErr))
        | none => s
      let r := s1.runProcessPayloadStatusResult h result
      (r.1, done r.2)

/-- `EngineClient.ForkchoiceUpdated`; `reply` is what
`s.Client.ForkchoiceUpdated(cctx, state, attrs, forkVersion)` returned. -/
def EngineClient.ForkchoiceUpdated (h : Helpers) (s : EngineClient)
    (attrs : Option PayloadAttributes)
    (reply : Option ForkchoiceResponseV1 × Option GoError) :
    (Option PayloadID × Option GoError) × EngineClient :=
  let done := fun (t : EngineClient) =>
    { t with metrics := t.metrics.measureForkchoiceUpdateDuration }
  let s0 := match attrs with
    | some a =>
        if a.SuggestedFeeRecipient = zeroExecutionAddress
        then s.logWarn "Suggested fee recipient is not configured 🔆" "fee-recipent"
          (LogValue.address a.SuggestedFeeRecipient)
        else s
    | none => s
  match reply with
  | (_, some err) =>
      let s1 := if errorsIs err GoError.ErrEngineAPITimeout
        then { s0 with metrics := s0.metrics.incrementForkchoiceUpdateTimeout } else s0
      let r := s1.runHandleRPCError h err
      ((none, r.1), done r.2)
  | (none, none) => ((none, some GoError.ErrNilForkchoiceResponse), done s0)
  | (some result, none) =>
      let r := s0.runProcessPayloadStatusResult h result.PayloadStatus
      match r.1.2 with
      | some err => ((none, some err), done r.2)
      | none => ((result.PayloadID, none), done r.2)

/-- `EngineClient.GetPayload`; `reply` is what
`s.Client.GetPayload(cctx, payloadID, forkVersion)` returned. -/
def EngineClient.GetPayload (h : Helpers) (s : EngineClient)
    (reply : Option BuiltExecutionPayloadEnv × Option GoError) :
    (Option BuiltExecutionPayloadEnv × Option GoError) × EngineClient :=
  let done := fun (t : EngineClient) =>
    { t with metrics := t.metrics.measureGetPayloadDuration }
  match reply with
  | (result, some err) =>
      let s1 := if errorsIs err GoError.ErrEngineAPITimeout
        then { s with metrics := s.metrics.incrementGetPayloadTimeout } else s
      let r := s1.runHandleRPCError h err
      ((result, r.1), done r.2)
  | (none, none) => ((none, some GoError.ErrNilExecutionPayloadEnvelope), done s)
  | (some result, none) =>
      match result.GetBlobsBundle with
      | none => ((some result, some GoError.ErrNilBlobsBundle), done s)
      | some _ => ((some result, none), done s)

/-- The first loop of `ExchangeCapabilities`: log and store every capability
of the reply. -/
def EngineClient.captureCapabilities (s : EngineClient) (result : List String) :
    EngineClient :=
  result.foldl
    (fun t capability =>
      (t.logInfo "Exchanged capability" "capability" (LogValue.str capability)).setCapability
        capability)
    s

/-- The second loop of `ExchangeCapabilities`: warn about every locally
supported capability the client does not have. -/
def EngineClient.warnUnsupported (s : EngineClient) (supported : List String) :
    EngineClient :=
  supported.foldl
    (fun t capability =>
      if !t.HasCapability capability
      then t.logWarn "Your execution client may require an update 🚸"
        "unsupported_capability" (LogValue.str capability)
      else t)
    s

/-- `EngineClient.ExchangeCapabilities`; `reply` is what
`s.Client.ExchangeCapabilities(ctx, BeaconKitSupportedCapabilities())`
returned (a nil slice is `none` and ranges like the empty slice). -/
def EngineClient.ExchangeCapabilities (h : Helpers) (s : EngineClient)
    (reply : Option (List String) × Option GoError) :
    (Option (List String) × Option GoError) × EngineClient :=
  match reply with
  | (_, some err) => ((none, some err), s)
  | (result, none) =>
      let s1 := s.captureCapabilities (result.getD [])
      let s2 := s1.warnUnsupported h.BeaconKitSupportedCapabilities
      ((result, none), s2)

/-- The compatibility warnings in a log, by capability. -/
def compatibilityWarnings (log : List LogEntry) : List String :=
  log.filterMap fun entry =>
    match entry.level, entry.key, entry.value with
    | LogLevel.warn, "unsupported_capability", LogValue.str capability => some capability
    | _, _, _ => none

/-- The log entries written between two states of the client. -/
def EngineClient.emittedSince (before after : EngineClient) : List LogEntry :=
  after.logger.drop before.logger.length

/-- The entry of the first loop of `ExchangeCapabilities`. -/
def exchangedEntry (capability : String) : LogEntry :=
  ⟨LogLevel.info, "Exchanged capability", "capability", LogValue.str capability⟩

/-- The entry of the second loop of `ExchangeCapabilities`. -/
def unsupportedEntry (capability : String) : LogEntry :=
  ⟨LogLevel.warn, "Your execution client may require an update 🚸",
    "unsupported_capability", LogValue.str capability⟩

/-- The three timeout counters of a client, in the order `NewPayload`,
`ForkchoiceUpdated`, `GetPayload`. -/
def EngineClient.timeoutCounters (s : EngineClient) : Nat × Nat × Nat :=
  (s.metrics.newPayloadTimeout, s.metrics.forkchoiceUpdateTimeout,
    s.metrics.getPayloadTimeout)

/-! ## Helpers described by the specification -/

/-- Modelled from the spec: `processPayloadStatusResult` is not among the
sources. Spec section 4.2: `Valid` succeeds with the associated valid hash and
fails with a schema-violation error if the hash is absent; `Invalid` fails with
kind `RejectedPayload`, carrying `latestValidHash` if present and any
validation message; `Syncing` and `Accepted` fail with kind `NotReady`; any
other status fails with kind `ProtocolViolation`. -/
def processPayloadStatusResult (result : PayloadStatusV1) :
    Option ExecutionHash × Option GoError :=
  match result.Status with
  | PayloadStatusStr.valid =>
      match result.LatestValidHash with
      | some hash => (some hash, none)
      | none => (none, some (GoError.other "ProtocolViolation"))
  | PayloadStatusStr.invalid =>
      match result.ValidationError with
      | some msg => (result.LatestValidHash, some (GoError.wrap msg (GoError.other "RejectedPayload")))
      | none => (result.LatestValidHash, some (GoError.other "RejectedPayload"))
  | PayloadStatusStr.syncing => (none, some (GoError.other "NotReady"))
  | PayloadStatusStr.accepted => (none, some (GoError.other "NotReady"))
  | PayloadStatusStr.unknown _ => (none, some (GoError.other "ProtocolViolation"))

/-- Modelled from the spec: `handleRPCError` is not among the sources. Spec
section 4.3: a deadline breach is classified `Timeout`, a structured remote
error `RemoteRejected`, any other transport failure `TransportFailure`, each
paired with the original cause. -/
def handleRPCError (err : GoError) : Option GoError :=
  if errorsIs err GoError.ErrEngineAPITimeout
  then some (GoError.wrap "Timeout" err)
  else
    match err with
    | GoError.jsonrpc _ _ => some (GoError.wrap "RemoteRejected" err)
    | _ => some (GoError.wrap "TransportFailure" err)

/-- The helpers as the specification describes them, for a given list of
locally supported capabilities. -/
def specHelpers (supported : List String) : Helpers :=
  ⟨handleRPCError, processPayloadStatusResult, supported⟩

/-- A client as created at construction: empty registry, nothing logged,
counters at zero. -/
def EngineClient.fresh : EngineClient :=
  ⟨[], [], ⟨0, 0, 0, []⟩, []⟩

/-! ## Consolidation requests (`consolidation_request.go`) -/

def sszConsolidationRequestSize : Nat := 116

/-- Modelled from the spec: `common.ExecutionAddress` and `crypto.BLSPubkey`
are declared outside the sources; they are byte arrays of 20 and of 48
bytes. -/
def executionAddressSize : Nat := 20

/-- Modelled from the spec: see `executionAddressSize`. -/
def blsPubkeySize : Nat := 48

abbrev BLSPubkey := List Byte

structure ConsolidationRequest where
  SourceAddress : ExecutionAddress
  SourcePubKey : BLSPubkey
  TargetPubKey : BLSPubkey
  deriving DecidableEq, Repr

abbrev ConsolidationRequests := List ConsolidationRequest

/-- The sum of the sizes of the static fields `DefineSSZ` lists, in order:
`SourceAddress`, `SourcePubKey`, `TargetPubKey`. -/
def definedSSZSize : Nat :=
  executionAddressSize + blsPubkeySize + blsPubkeySize

/-- Decoding one request along `ConsolidationRequest.DefineSSZ`: three static
byte fields in order; a blob whose length is not `SizeSSZ` is refused. -/
def decodeConsolidationRequest (blob : List Byte) : Except GoError ConsolidationRequest :=
  if blob.length ≠ sszConsolidationRequestSize
  then Except.error (GoError.other "ssz: wrong size")
  else Except.ok
    { SourceAddress := blob.take executionAddressSize
      SourcePubKey := (blob.drop executionAddressSize).take blsPubkeySize
      TargetPubKey :=
        (blob.drop (executionAddressSize + blsPubkeySize)).take blsPubkeySize }

/-- `ConsolidationRequests.ValidateAfterDecodingSSZ`, with the constant
`constants.MaxConsolidationRequestsPerPayload` as a parameter. -/
def ConsolidationRequests.ValidateAfterDecodingSSZ (maxPerPayload : Nat)
    (cr : ConsolidationRequests) : Option GoError :=
  if cr.length > maxPerPayload
  then some (GoError.errorf "invalid number of consolidation requests, got %d max %d"
    [cr.length, maxPerPayload])
  else none

/-- Decoding the items of a list one after the other, stopping at the first
error. -/
def decodeItems {α : Type} (decodeItem : List Byte → Except GoError α) :
    List (List Byte) → Option (List α) × Option GoError
  | [] => (some [], none)
  | blob :: rest =>
      match decodeItem blob with
      | Except.error err => (none, some err)
      | Except.ok item =>
          match decodeItems decodeItem rest with
          | (some items, none) => (some (item :: items), none)
          | other => (none, other.2)

/-- Modelled from the spec: `sszutil.UnmarshalItemsEIP7685` is not among the
sources. Following the comment on `DecodeConsolidationRequests` ("decodes SSZ
data by decoding each request individually"), it cuts the data into
`len(data)/itemSize` consecutive items of `itemSize` bytes and decodes each. -/
def UnmarshalItemsEIP7685 {α : Type} (data : List Byte) (itemSize : Nat)
    (decodeItem : List Byte → Except GoError α) : Option (List α) × Option GoError :=
  if data.length % itemSize ≠ 0
  then (none, some (GoError.errorf "invalid data length: %d is not a multiple of item size %d"
    [data.length, itemSize]))
  else decodeItems decodeItem
    ((List.range (data.length / itemSize)).map fun i =>
      (data.drop (i * itemSize)).take itemSize)

/-- `DecodeConsolidationRequests`, with the constant
`constants.MaxConsolidationRequestsPerPayload` as a parameter. -/
def DecodeConsolidationRequests (maxPerPayload : Nat) (data : List Byte) :
    Option ConsolidationRequests × Option GoError :=
  let maxSize := maxPerPayload * sszConsolidationRequestSize
  if data.length > maxSize then
    (none, some (GoError.errorf
      ("invalid consolidation requests SSZ size, requests should not be more than the " ++
        "max per payload, got %d max %d") [data.length, maxSize]))
  else if data.length < sszConsolidationRequestSize then
    (none, some (GoError.errorf
      "invalid consolidation requests SSZ size, got %d expected at least %d"
      [data.length, sszConsolidationRequestSize]))
  else if data.length % sszConsolidationRequestSize ≠ 0 then
    (none, some (GoError.errorf
      "invalid data length: %d is not a multiple of consolidation request size %d"
      [data.length, sszConsolidationRequestSize]))
  else
    UnmarshalItemsEIP7685 data sszConsolidationRequestSize decodeConsolidationRequest

/-! ## Capability exchange: auxiliary facts -/

theorem captureCapabilities_cons (s : EngineClient) (a : String) (R : List String) :
    s.captureCapabilities (a :: R) =
      ((s.logInfo "Exchanged capability" "capability" (LogValue.str a)).setCapability
        a).captureCapabilities R := by
  simp [EngineClient.captureCapabilities]

theorem mem_captureCapabilities (R : List String) (s : EngineClient) (c : String) :
    c ∈ (s.captureCapabilities R).capabilities ↔ c ∈ s.capabilities ∨ c ∈ R := by
  induction R generalizing s with
  | nil => simp [EngineClient.captureCapabilities]
  | cons a R ih =>
      rw [captureCapabilities_cons, ih]
      simp only [EngineClient.setCapability, EngineClient.logInfo, List.mem_insert_iff,
        List.mem_cons]
      tauto

theorem captureCapabilities_logger (R : List String) (s : EngineClient) :
    (s.captureCapabilities R).logger = s.logger ++ R.map exchangedEntry := by
  induction R generalizing s with
  | nil => simp [EngineClient.captureCapabilities]
  | cons a R ih =>
      rw [captureCapabilities_cons, ih]
      simp [EngineClient.setCapability, EngineClient.logInfo, exchangedEntry]

theorem captureCapabilities_frame (R : List String) (s : EngineClient) :
    (s.captureCapabilities R).metrics = s.metrics ∧
      (s.captureCapabilities R).calls = s.calls := by
  induction R generalizing s with
  | nil => simp [EngineClient.captureCapabilities]
  | cons a R ih =>
      rw [captureCapabilities_cons]
      exact ih _

theorem warnUnsupported_cons (s : EngineClient) (a : String) (L : List String) :
    s.warnUnsupported (a :: L) =
      (if !s.HasCapability a
        then s.logWarn "Your execution client may require an update 🚸"
          "unsupported_capability" (LogValue.str a)
        else s).warnUnsupported L := by
  simp [EngineClient.warnUnsupported]

theorem warnUnsupported_spec (L : List String) (s : EngineClient) :
    s.warnUnsupported L =
      { s with logger := s.logger ++
          (L.filter fun c => !s.HasCapability c).map unsupportedEntry } := by
  induction L generalizing s with
  | nil => simp [EngineClient.warnUnsupported]
  | cons a L ih =>
      rw [warnUnsupported_cons, ih]
      by_cases hc : a ∈ s.capabilities
      · simp [EngineClient.HasCapability, hc]
      · simp [EngineClient.HasCapability, hc, EngineClient.logWarn, unsupportedEntry]

theorem compatibilityWarnings_append (l₁ l₂ : List LogEntry) :
    compatibilityWarnings (l₁ ++ l₂) = compatibilityWarnings l₁ ++ compatibilityWarnings l₂ := by
  simp [compatibilityWarnings, List.filterMap_append]

theorem compatibilityWarnings_exchanged (R : List String) :
    compatibilityWarnings (R.map exchangedEntry) = [] := by
  induction R with
  | nil => rfl
  | cons a R ih =>
      simp [compatibilityWarnings, exchangedEntry]

theorem compatibilityWarnings_unsupported (L : List String) :
    compatibilityWarnings (L.map unsupportedEntry) = L := by
  induction L with
  | nil => rfl
  | cons a L ih =>
      simpa [compatibilityWarnings, unsupportedEntry] using ih

/-- What a successful `ExchangeCapabilities` does to the state. -/
theorem exchange_ok_state (h : Helpers) (s : EngineClient)
    (result : Option (List String)) :
    s.ExchangeCapabilities h (result, none) =
      ((result, none),
        { s.captureCapabilities (result.getD []) with
          logger := s.logger ++ (result.getD []).map exchangedEntry ++
            (h.BeaconKitSupportedCapabilities.filter fun c =>
              !(s.captureCapabilities (result.getD [])).HasCapability c).map
              unsupportedEntry }) := by
  simp [EngineClient.ExchangeCapabilities, warnUnsupported_spec, captureCapabilities_logger]

theorem emitted_warnings_eq (h : Helpers) (s : EngineClient)
    (result : Option (List String)) :
    compatibilityWarnings
        (s.emittedSince (s.ExchangeCapabilities h (result, none)).2) =
      h.BeaconKitSupportedCapabilities.filter fun c =>
        !decide (c ∈ s.capabilities ∨ c ∈ result.getD []) := by
  rw [exchange_ok_state]
  simp only [EngineClient.emittedSince, List.append_assoc, List.drop_left,
    compatibilityWarnings_append, compatibilityWarnings_exchanged,
    compatibilityWarnings_unsupported, List.nil_append]
  congr 1
  funext c
  simp [EngineClient.HasCapability, mem_captureCapabilities]

/-! ## Capability exchange -/

/-- C1 (as stated, refuted): from a fresh client, after two successive
successful exchanges with remote lists `["A"]` then `["B"]`, the capability
`"A"`, in the first list but not in the second, is still in the registry. -/
theorem exchangeCapabilities_keeps_stale_entry :
    "A" ∈ ["A"] ∧ "A" ∉ ["B"] ∧
      (((EngineClient.fresh.ExchangeCapabilities (specHelpers ["A", "B"])
          (some ["A"], none)).2.ExchangeCapabilities (specHelpers ["A", "B"])
          (some ["B"], none)).2.HasCapability "A") = true ∧
      ¬ ((((EngineClient.fresh.ExchangeCapabilities (specHelpers ["A", "B"])
          (some ["A"], none)).2.ExchangeCapabilities (specHelpers ["A", "B"])
          (some ["B"], none)).2.HasCapability "A") = true ↔ "A" ∈ ["B"]) := by
  decide

/-- C1 (amended): a successful `ExchangeCapabilities` returns the remote list
with a nil error and adds it to the registry: a capability is present
afterwards if and only if it was present before the call or is in the remote
list. From an empty registry the registry afterwards holds exactly the remote
list, and after two successive calls the capabilities of both lists are
present. -/
theorem exchangeCapabilities_registry (h : Helpers) (s : EngineClient)
    (result result₂ : Option (List String)) (c : String) :
    (s.ExchangeCapabilities h (result, none)).1 = (result, none) ∧
      ((s.ExchangeCapabilities h (result, none)).2.HasCapability c = true ↔
        s.HasCapability c = true ∨ c ∈ result.getD []) ∧
      (({ s with capabilities := [] }.ExchangeCapabilities h (result, none)).2.HasCapability
          c = true ↔ c ∈ result.getD []) ∧
      (((s.ExchangeCapabilities h (result, none)).2.ExchangeCapabilities h
          (result₂, none)).2.HasCapability c = true ↔
        s.HasCapability c = true ∨ c ∈ result.getD [] ∨ c ∈ result₂.getD []) := by
  simp only [exchange_ok_state, EngineClient.HasCapability, decide_eq_true_eq,
    mem_captureCapabilities, List.not_mem_nil, false_or, or_assoc, and_self]

/-- C2 (as stated, refuted): local list `["A", "B"]`, registry holding `"B"`
from an earlier exchange, remote list `["A"]`: `"B"` is locally supported and
absent from the remote list, yet the call emits no warning at all. -/
theorem exchangeCapabilities_stale_entry_hides_warning :
    "B" ∈ (specHelpers ["A", "B"]).BeaconKitSupportedCapabilities ∧ "B" ∉ ["A"] ∧
      (EngineClient.fresh.ExchangeCapabilities (specHelpers ["A", "B"])
          (some ["B"], none)).2.capabilities = ["B"] ∧
      compatibilityWarnings
        (EngineClient.emittedSince
          (EngineClient.fresh.ExchangeCapabilities (specHelpers ["A", "B"])
            (some ["B"], none)).2
          ((EngineClient.fresh.ExchangeCapabilities (specHelpers ["A", "B"])
            (some ["B"], none)).2.ExchangeCapabilities (specHelpers ["A", "B"])
            (some ["A"], none)).2) = [] ∧
      ¬ ("B" ∈ compatibilityWarnings
          (EngineClient.emittedSince
            (EngineClient.fresh.ExchangeCapabilities (specHelpers ["A", "B"])
              (some ["B"], none)).2
            ((EngineClient.fresh.ExchangeCapabilities (specHelpers ["A", "B"])
              (some ["B"], none)).2.ExchangeCapabilities (specHelpers ["A", "B"])
              (some ["A"], none)).2) ↔ "B" ∉ ["A"]) := by
  decide

/-- C2 (amended): in a successful `ExchangeCapabilities`, with a local list
that names each capability once, a compatibility warning is emitted for a
locally supported capability `c` if and only if `c` is absent from the remote
list and from the registry as it was before the call; exactly one warning is
emitted for such a `c`, none for any capability outside the local list, and the
call returns the remote list with a nil error. -/
theorem exchangeCapabilities_warnings (h : Helpers) (s : EngineClient)
    (result : Option (List String)) (c : String)
    (hnodup : h.BeaconKitSupportedCapabilities.Nodup) :
    (c ∈ compatibilityWarnings
          (s.emittedSince (s.ExchangeCapabilities h (result, none)).2) ↔
        c ∈ h.BeaconKitSupportedCapabilities ∧ c ∉ result.getD [] ∧
          s.HasCapability c = false) ∧
      (compatibilityWarnings
          (s.emittedSince (s.ExchangeCapabilities h (result, none)).2)).count c =
        (if c ∈ h.BeaconKitSupportedCapabilities ∧ c ∉ result.getD [] ∧
            s.HasCapability c = false then 1 else 0) ∧
      (s.ExchangeCapabilities h (result, none)).1 = (result, none) := by
  have hmem : c ∈ compatibilityWarnings
          (s.emittedSince (s.ExchangeCapabilities h (result, none)).2) ↔
        c ∈ h.BeaconKitSupportedCapabilities ∧ c ∉ result.getD [] ∧
          s.HasCapability c = false := by
    rw [emitted_warnings_eq]
    simp only [List.mem_filter, EngineClient.HasCapability, Bool.not_eq_true',
      decide_eq_false_iff_not, not_or]
    tauto
  have hnd : (compatibilityWarnings
      (s.emittedSince (s.ExchangeCapabilities h (result, none)).2)).Nodup := by
    rw [emitted_warnings_eq]
    exact hnodup.filter _
  refine ⟨hmem, ?_, by rw [exchange_ok_state]⟩
  rw [List.count_eq_of_nodup hnd]
  by_cases hc : c ∈ h.BeaconKitSupportedCapabilities ∧ c ∉ result.getD [] ∧
      s.HasCapability c = false
  · rw [if_pos (hmem.mpr hc), if_pos hc]
  · rw [if_neg (fun hm => hc (hmem.mp hm)), if_neg hc]

/-- C2 (amended), at local list `["A", "B"]`, empty registry and remote list
`["A"]`: exactly one warning, for `"B"`. -/
theorem exchangeCapabilities_warnings_witness :
    (specHelpers ["A", "B"]).BeaconKitSupportedCapabilities.Nodup ∧
      compatibilityWarnings
        (EngineClient.fresh.emittedSince
          (EngineClient.fresh.ExchangeCapabilities (specHelpers ["A", "B"])
            (some ["A"], none)).2) = ["B"] ∧
      (compatibilityWarnings
          (EngineClient.fresh.emittedSince
            (EngineClient.fresh.ExchangeCapabilities (specHelpers ["A", "B"])
              (some ["A"], none)).2)).count "B" =
        (if "B" ∈ (specHelpers ["A", "B"]).BeaconKitSupportedCapabilities ∧
            "B" ∉ (some ["A"] : Option (List String)).getD [] ∧
            EngineClient.fresh.HasCapability "B" = false then 1 else 0) :=
  ⟨by decide, by decide,
    (exchangeCapabilities_warnings (specHelpers ["A", "B"]) EngineClient.fresh
      (some ["A"]) "B" (by decide)).2.1⟩

/-! ## Nil responses -/

/-- C3: when the transport returns no error and a nil response, `NewPayload`,
`ForkchoiceUpdated` and `GetPayload` fail with `ErrNilPayloadStatus`,
`ErrNilForkchoiceResponse` and `ErrNilExecutionPayloadEnvelope` respectively;
neither `handleRPCError` nor `processPayloadStatusResult` is called, and the
three timeout counters keep their values. -/
theorem nil_response_fails_with_dedicated_error (h : Helpers) (s : EngineClient)
    (attrs : Option PayloadAttributes) :
    ((s.NewPayload h (none, none)).1 = (none, some GoError.ErrNilPayloadStatus) ∧
      (s.NewPayload h (none, none)).2.calls = s.calls ∧
      (s.NewPayload h (none, none)).2.metrics.newPayloadTimeout =
        s.metrics.newPayloadTimeout ∧
      (s.NewPayload h (none, none)).2.metrics.forkchoiceUpdateTimeout =
        s.metrics.forkchoiceUpdateTimeout ∧
      (s.NewPayload h (none, none)).2.metrics.getPayloadTimeout =
        s.metrics.getPayloadTimeout) ∧
    ((s.ForkchoiceUpdated h attrs (none, none)).1 =
        (none, some GoError.ErrNilForkchoiceResponse) ∧
      (s.ForkchoiceUpdated h attrs (none, none)).2.calls = s.calls ∧
      (s.ForkchoiceUpdated h attrs (none, none)).2.metrics.newPayloadTimeout =
        s.metrics.newPayloadTimeout ∧
      (s.ForkchoiceUpdated h attrs (none, none)).2.metrics.forkchoiceUpdateTimeout =
        s.metrics.forkchoiceUpdateTimeout ∧
      (s.ForkchoiceUpdated h attrs (none, none)).2.metrics.getPayloadTimeout =
        s.metrics.getPayloadTimeout) ∧
    ((s.GetPayload h (none, none)).1 =
        (none, some GoError.ErrNilExecutionPayloadEnvelope) ∧
      (s.GetPayload h (none, none)).2.calls = s.calls ∧
      (s.GetPayload h (none, none)).2.metrics.newPayloadTimeout =
        s.metrics.newPayloadTimeout ∧
      (s.GetPayload h (none, none)).2.metrics.forkchoiceUpdateTimeout =
        s.metrics.forkchoiceUpdateTimeout ∧
      (s.GetPayload h (none, none)).2.metrics.getPayloadTimeout =
        s.metrics.getPayloadTimeout) := by
  refine ⟨⟨rfl, rfl, rfl, rfl, rfl⟩, ?_, ⟨rfl, rfl, rfl, rfl, rfl⟩⟩
  rcases attrs with _ | a
  · exact ⟨rfl, rfl, rfl, rfl, rfl⟩
  · by_cases hz : a.SuggestedFeeRecipient = zeroExecutionAddress <;>
      simp [EngineClient.ForkchoiceUpdated, hz, EngineClient.logWarn,
        Metrics.measureForkchoiceUpdateDuration]

/-! ## GetPayload -/

theorem handleRPCError_ne_none (e : GoError) : handleRPCError e ≠ none := by
  unfold handleRPCError
  split
  · simp
  · split <;> simp

/-- C4: provided the classifier `handleRPCError` never turns an error into nil,
`GetPayload` returns a nil error if and only if the transport returns no error
and a non-nil envelope with a non-nil blobs bundle, and then it returns the
transport's envelope. With no transport error, a nil envelope fails with
`ErrNilExecutionPayloadEnvelope` and an envelope without blobs bundle fails with
`ErrNilBlobsBundle`; the two errors differ and on neither path is
`handleRPCError` called. -/
theorem getPayload_nil_error_iff (h : Helpers) (s : EngineClient)
    (reply : Option BuiltExecutionPayloadEnv × Option GoError)
    (hne : ∀ e, h.handleRPCError e ≠ none) :
    ((s.GetPayload h reply).1.2 = none ↔
        reply.2 = none ∧ ∃ env, reply.1 = some env ∧ env.GetBlobsBundle ≠ none) ∧
      ((s.GetPayload h reply).1.2 = none → (s.GetPayload h reply).1.1 = reply.1) ∧
      ((s.GetPayload h (none, none)).1 =
          (none, some GoError.ErrNilExecutionPayloadEnvelope) ∧
        (s.GetPayload h (none, none)).2.calls = s.calls) ∧
      (∀ env : BuiltExecutionPayloadEnv, env.GetBlobsBundle = none →
        (s.GetPayload h (some env, none)).1 = (some env, some GoError.ErrNilBlobsBundle) ∧
          (s.GetPayload h (some env, none)).2.calls = s.calls) ∧
      GoError.ErrNilExecutionPayloadEnvelope ≠ GoError.ErrNilBlobsBundle := by
  refine ⟨?_, ?_, ⟨rfl, rfl⟩, ?_, by decide⟩
  · obtain ⟨result, err⟩ := reply
    rcases err with _ | e
    · rcases result with _ | env
      · simp [EngineClient.GetPayload]
      · rcases hb : env.GetBlobsBundle with _ | b <;>
          simp [EngineClient.GetPayload, hb]
    · simpa [EngineClient.GetPayload, EngineClient.runHandleRPCError] using hne e
  · obtain ⟨result, err⟩ := reply
    rcases err with _ | e
    · rcases result with _ | env
      · simp [EngineClient.GetPayload]
      · rcases hb : env.GetBlobsBundle with _ | b <;>
          simp [EngineClient.GetPayload, hb]
    · simp [EngineClient.GetPayload, EngineClient.runHandleRPCError]
  · intro env hb
    simp [EngineClient.GetPayload, hb]

/-- C4 at a concrete reply: an envelope with a blobs bundle, no transport
error, the classifier of the specification. -/
theorem getPayload_nil_error_iff_witness :
    (∀ e, (specHelpers []).handleRPCError e ≠ none) ∧
      (EngineClient.fresh.GetPayload (specHelpers [])
          (some ⟨[1, 2], some ⟨[]⟩⟩, none)).1 = (some ⟨[1, 2], some ⟨[]⟩⟩, none) ∧
      ((EngineClient.fresh.GetPayload (specHelpers [])
          (some ⟨[1, 2], some ⟨[]⟩⟩, none)).1.2 = none ↔
        (some (⟨[1, 2], some ⟨[]⟩⟩ : BuiltExecutionPayloadEnv), (none : Option GoError)).2 =
            none ∧
          ∃ env, (some (⟨[1, 2], some ⟨[]⟩⟩ : BuiltExecutionPayloadEnv),
              (none : Option GoError)).1 = some env ∧ env.GetBlobsBundle ≠ none) :=
  ⟨handleRPCError_ne_none, by decide,
    (getPayload_nil_error_iff (specHelpers []) EngineClient.fresh
      (some ⟨[1, 2], some ⟨[]⟩⟩, none) handleRPCError_ne_none).1⟩

/-! ## ForkchoiceUpdated -/

/-- C5: for a non-nil transport response and no transport error,
`ForkchoiceUpdated` calls the status processor once, on the embedded payload
status; if the processor returns an error `e` the operation returns `(nil, e)`,
and if it returns no error the operation returns the response's payload ID
(which may be nil) with a nil error. -/
theorem forkchoiceUpdated_payloadID (h : Helpers) (s : EngineClient)
    (attrs : Option PayloadAttributes) (result : ForkchoiceResponseV1) :
    (s.ForkchoiceUpdated h attrs (some result, none)).1 =
        (match (h.processPayloadStatusResult result.PayloadStatus).2 with
          | some e => (none, some e)
          | none => (result.PayloadID, none)) ∧
      (s.ForkchoiceUpdated h attrs (some result, none)).2.calls =
        s.calls ++ [HelperCall.processPayloadStatusResult result.PayloadStatus] := by
  rcases attrs with _ | a
  · rcases hp : (h.processPayloadStatusResult result.PayloadStatus).2 with _ | e <;>
      simp [EngineClient.ForkchoiceUpdated, EngineClient.runProcessPayloadStatusResult, hp]
  · by_cases hz : a.SuggestedFeeRecipient = zeroExecutionAddress <;>
      rcases hp : (h.processPayloadStatusResult result.PayloadStatus).2 with _ | e <;>
      simp [EngineClient.ForkchoiceUpdated, EngineClient.runProcessPayloadStatusResult, hp,
        hz, EngineClient.logWarn]

/-! ## NewPayload -/

/-- C6: for a non-nil transport response `r` and no transport error,
`NewPayload` returns exactly the pair `processPayloadStatusResult(r)` returns,
whether or not `r.ValidationError` is set; a set `ValidationError` adds one
error entry to the log and changes nothing else of the state. -/
theorem newPayload_validation_error_is_diagnostic (h : Helpers) (s : EngineClient)
    (r : PayloadStatusV1) :
    (s.NewPayload h (some r, none)).1 = h.processPayloadStatusResult r ∧
      (s.NewPayload h (some r, none)).2 =
        { capabilities := s.capabilities
          logger := s.logger ++
            (match r.ValidationError with
              | some validationErr =>
                  [⟨LogLevel.error, "Got a validation error in newPayload", "err",
                    LogValue.err (GoError.other validationErr)⟩]
              | none => [])
          metrics := s.metrics.measureNewPayloadDuration
          calls := s.calls ++ [HelperCall.processPayloadStatusResult r] } := by
  rcases hv : r.ValidationError with _ | v <;>
    simp [EngineClient.NewPayload, EngineClient.runProcessPayloadStatusResult, hv,
      EngineClient.logError]

/-- C7 (the code departs from it): `NewPayload` on a fresh client, the
transport replying with status `Valid`, a valid hash and a validation error
set, the status processor being that of spec section 4.2: the validation error
is logged, the processor is called on the response, and the call returns the
hash with a nil error, where the comment in `NewPayload` expects an error. -/
theorem newPayload_valid_with_validation_error :
    (⟨PayloadStatusStr.valid, some ⟨[1]⟩, some "boom"⟩ : PayloadStatusV1).ValidationError ≠
        none ∧
      (EngineClient.fresh.NewPayload (specHelpers [])
        (some ⟨PayloadStatusStr.valid, some ⟨[1]⟩, some "boom"⟩, none)).1 =
          (some ⟨[1]⟩, none) ∧
      (EngineClient.fresh.NewPayload (specHelpers [])
        (some ⟨PayloadStatusStr.valid, some ⟨[1]⟩, some "boom"⟩, none)).2.logger =
          [⟨LogLevel.error, "Got a validation error in newPayload", "err",
            LogValue.err (GoError.other "boom")⟩] ∧
      (EngineClient.fresh.NewPayload (specHelpers [])
        (some ⟨PayloadStatusStr.valid, some ⟨[1]⟩, some "boom"⟩, none)).2.calls =
          [HelperCall.processPayloadStatusResult
            ⟨PayloadStatusStr.valid, some ⟨[1]⟩, some "boom"⟩] := by
  decide

/-- With the status processor of spec section 4.2, for a non-nil transport
response whose `ValidationError` is set, `NewPayload` logs the validation error
and returns what the processor returns: a non-nil error for every status except
`Valid` with a hash present (so for every `Invalid` payload), and a nil error
for `Valid` with a hash present. -/
theorem newPayload_validation_error_result (handle : GoError → Option GoError)
    (supported : List String) (s : EngineClient)
    (r : PayloadStatusV1) (v : String) (hv : r.ValidationError = some v) :
    ((s.NewPayload ⟨handle, processPayloadStatusResult, supported⟩
          (some r, none)).1.2 = none ↔
        r.Status = PayloadStatusStr.valid ∧ r.LatestValidHash ≠ none) ∧
      (r.Status = PayloadStatusStr.invalid →
        (s.NewPayload ⟨handle, processPayloadStatusResult, supported⟩
          (some r, none)).1.2 ≠ none) ∧
      (s.NewPayload ⟨handle, processPayloadStatusResult, supported⟩
          (some r, none)).1 = processPayloadStatusResult r ∧
      (s.NewPayload ⟨handle, processPayloadStatusResult, supported⟩
          (some r, none)).2.logger =
        s.logger ++ [⟨LogLevel.error, "Got a validation error in newPayload", "err",
          LogValue.err (GoError.other v)⟩] := by
  obtain ⟨status, hash, verr⟩ := r
  simp only at hv
  subst hv
  refine ⟨?_, ?_, ?_, ?_⟩
  · rcases status with _ | _ | _ | _ | u <;> rcases hash with _ | hh <;>
      simp [EngineClient.NewPayload, EngineClient.runProcessPayloadStatusResult,
        processPayloadStatusResult]
  · intro hs
    simp only at hs
    subst hs
    simp [EngineClient.NewPayload, EngineClient.runProcessPayloadStatusResult,
      processPayloadStatusResult]
  · simp [EngineClient.NewPayload, EngineClient.runProcessPayloadStatusResult]
  · simp [EngineClient.NewPayload, EngineClient.runProcessPayloadStatusResult,
      EngineClient.logError, Metrics.measureNewPayloadDuration]

/-- An `Invalid` response carrying a validation error: the returned error is
non-nil and the validation error is logged. -/
theorem newPayload_validation_error_result_witness :
    (⟨PayloadStatusStr.invalid, none, some "bad block"⟩ : PayloadStatusV1).ValidationError =
        some "bad block" ∧
      (EngineClient.fresh.NewPayload ⟨handleRPCError, processPayloadStatusResult, []⟩
        (some ⟨PayloadStatusStr.invalid, none, some "bad block"⟩, none)).1.2 ≠ none ∧
      (EngineClient.fresh.NewPayload ⟨handleRPCError, processPayloadStatusResult, []⟩
        (some ⟨PayloadStatusStr.invalid, none, some "bad block"⟩, none)).2.logger =
        EngineClient.fresh.logger ++
          [⟨LogLevel.error, "Got a validation error in newPayload", "err",
            LogValue.err (GoError.other "bad block")⟩] :=
  ⟨rfl,
    (newPayload_validation_error_result handleRPCError [] EngineClient.fresh
      ⟨PayloadStatusStr.invalid, none, some "bad block"⟩ "bad block" rfl).2.1 rfl,
    (newPayload_validation_error_result handleRPCError [] EngineClient.fresh
      ⟨PayloadStatusStr.invalid, none, some "bad block"⟩ "bad block" rfl).2.2.2⟩

/-! ## Timeouts and classification of transport errors -/

theorem newPayload_transport_error (h : Helpers) (s : EngineClient)
    (result : Option PayloadStatusV1) (e : GoError) :
    s.NewPayload h (result, some e) =
      ((none, h.handleRPCError e),
        { s with
          metrics :=
            (if errorsIs e GoError.ErrEngineAPITimeout
              then s.metrics.incrementNewPayloadTimeout
              else s.metrics).measureNewPayloadDuration
          calls := s.calls ++ [HelperCall.handleRPCError e] }) := by
  by_cases ht : errorsIs e GoError.ErrEngineAPITimeout = true <;>
    simp [EngineClient.NewPayload, EngineClient.runHandleRPCError, ht]

theorem getPayload_transport_error (h : Helpers) (s : EngineClient)
    (result : Option BuiltExecutionPayloadEnv) (e : GoError) :
    s.GetPayload h (result, some e) =
      ((result, h.handleRPCError e),
        { s with
          metrics :=
            (if errorsIs e GoError.ErrEngineAPITimeout
              then s.metrics.incrementGetPayloadTimeout
              else s.metrics).measureGetPayloadDuration
          calls := s.calls ++ [HelperCall.handleRPCError e] }) := by
  by_cases ht : errorsIs e GoError.ErrEngineAPITimeout = true <;>
    simp [EngineClient.GetPayload, EngineClient.runHandleRPCError, ht]

theorem forkchoiceUpdated_transport_error (h : Helpers) (s : EngineClient)
    (attrs : Option PayloadAttributes) (result : Option ForkchoiceResponseV1)
    (e : GoError) :
    (s.ForkchoiceUpdated h attrs (result, some e)).1 = (none, h.handleRPCError e) ∧
      (s.ForkchoiceUpdated h attrs (result, some e)).2.metrics =
        (if errorsIs e GoError.ErrEngineAPITimeout
          then s.metrics.incrementForkchoiceUpdateTimeout
          else s.metrics).measureForkchoiceUpdateDuration ∧
      (s.ForkchoiceUpdated h attrs (result, some e)).2.calls =
        s.calls ++ [HelperCall.handleRPCError e] := by
  rcases attrs with _ | a
  · by_cases ht : errorsIs e GoError.ErrEngineAPITimeout = true <;>
      simp [EngineClient.ForkchoiceUpdated, EngineClient.runHandleRPCError, ht]
  · by_cases hz : a.SuggestedFeeRecipient = zeroExecutionAddress <;>
      by_cases ht : errorsIs e GoError.ErrEngineAPITimeout = true <;>
      simp [EngineClient.ForkchoiceUpdated, EngineClient.runHandleRPCError, ht, hz,
        EngineClient.logWarn]

theorem newPayload_no_transport_error (h : Helpers) (s : EngineClient)
    (result : Option PayloadStatusV1) :
    (s.NewPayload h (result, none)).2.metrics = s.metrics.measureNewPayloadDuration := by
  rcases result with _ | r
  · rfl
  · rcases hv : r.ValidationError with _ | v <;>
      simp [EngineClient.NewPayload, EngineClient.runProcessPayloadStatusResult, hv,
        EngineClient.logError]

theorem getPayload_no_transport_error (h : Helpers) (s : EngineClient)
    (result : Option BuiltExecutionPayloadEnv) :
    (s.GetPayload h (result, none)).2.metrics = s.metrics.measureGetPayloadDuration := by
  rcases result with _ | env
  · rfl
  · rcases hb : env.GetBlobsBundle with _ | b <;> simp [EngineClient.GetPayload, hb]

theorem forkchoiceUpdated_no_transport_error (h : Helpers) (s : EngineClient)
    (attrs : Option PayloadAttributes) (result : Option ForkchoiceResponseV1) :
    (s.ForkchoiceUpdated h attrs (result, none)).2.metrics =
      s.metrics.measureForkchoiceUpdateDuration := by
  rcases result with _ | r
  · rcases attrs with _ | a
    · rfl
    · by_cases hz : a.SuggestedFeeRecipient = zeroExecutionAddress <;>
        simp [EngineClient.ForkchoiceUpdated, hz, EngineClient.logWarn]
  · rcases attrs with _ | a
    · rcases hp : (h.processPayloadStatusResult r.PayloadStatus).2 with _ | e <;>
        simp [EngineClient.ForkchoiceUpdated, EngineClient.runProcessPayloadStatusResult, hp]
    · by_cases hz : a.SuggestedFeeRecipient = zeroExecutionAddress <;>
        rcases hp : (h.processPayloadStatusResult r.PayloadStatus).2 with _ | e <;>
        simp [EngineClient.ForkchoiceUpdated, EngineClient.runProcessPayloadStatusResult, hp,
          hz, EngineClient.logWarn]

/-- C8: provided the classifier `handleRPCError` never turns an error into nil:
when the transport fails with an error matching `ErrEngineAPITimeout`, each of
`NewPayload`, `ForkchoiceUpdated` and `GetPayload` adds exactly one to its own
timeout counter, leaves the other two unchanged and returns the non-nil error
`handleRPCError` gave for the transport error; when the transport error does
not match `ErrEngineAPITimeout`, or the transport returns no error, the three
counters are unchanged. -/
theorem timeout_increments_own_counter (h : Helpers) (s : EngineClient)
    (attrs : Option PayloadAttributes) (hne : ∀ e, h.handleRPCError e ≠ none) :
    (∀ result e, errorsIs e GoError.ErrEngineAPITimeout = true →
      (s.NewPayload h (result, some e)).2.timeoutCounters =
          (s.metrics.newPayloadTimeout + 1, s.metrics.forkchoiceUpdateTimeout,
            s.metrics.getPayloadTimeout) ∧
        (s.NewPayload h (result, some e)).1.2 = h.handleRPCError e ∧
        (s.NewPayload h (result, some e)).1.2 ≠ none) ∧
    (∀ result e, errorsIs e GoError.ErrEngineAPITimeout = true →
      (s.ForkchoiceUpdated h attrs (result, some e)).2.timeoutCounters =
          (s.metrics.newPayloadTimeout, s.metrics.forkchoiceUpdateTimeout + 1,
            s.metrics.getPayloadTimeout) ∧
        (s.ForkchoiceUpdated h attrs (result, some e)).1.2 = h.handleRPCError e ∧
        (s.ForkchoiceUpdated h attrs (result, some e)).1.2 ≠ none) ∧
    (∀ result e, errorsIs e GoError.ErrEngineAPITimeout = true →
      (s.GetPayload h (result, some e)).2.timeoutCounters =
          (s.metrics.newPayloadTimeout, s.metrics.forkchoiceUpdateTimeout,
            s.metrics.getPayloadTimeout + 1) ∧
        (s.GetPayload h (result, some e)).1.2 = h.handleRPCError e ∧
        (s.GetPayload h (result, some e)).1.2 ≠ none) ∧
    (∀ e, errorsIs e GoError.ErrEngineAPITimeout = false →
      (∀ result, (s.NewPayload h (result, some e)).2.timeoutCounters = s.timeoutCounters) ∧
      (∀ result, (s.ForkchoiceUpdated h attrs (result, some e)).2.timeoutCounters =
        s.timeoutCounters) ∧
      (∀ result, (s.GetPayload h (result, some e)).2.timeoutCounters = s.timeoutCounters)) ∧
    ((∀ result, (s.NewPayload h (result, none)).2.timeoutCounters = s.timeoutCounters) ∧
      (∀ result, (s.ForkchoiceUpdated h attrs (result, none)).2.timeoutCounters =
        s.timeoutCounters) ∧
      (∀ result, (s.GetPayload h (result, none)).2.timeoutCounters = s.timeoutCounters)) := by
  refine ⟨?_, ?_, ?_, ?_, ?_, ?_, ?_⟩
  · intro result e ht
    rw [newPayload_transport_error]
    exact ⟨by simp [EngineClient.timeoutCounters, ht, Metrics.incrementNewPayloadTimeout,
      Metrics.measureNewPayloadDuration], rfl, hne e⟩
  · intro result e ht
    obtain ⟨h1, h2, _⟩ := forkchoiceUpdated_transport_error h s attrs result e
    refine ⟨?_, by rw [h1], by rw [h1]; exact hne e⟩
    simp [EngineClient.timeoutCounters, h2, ht, Metrics.incrementForkchoiceUpdateTimeout,
      Metrics.measureForkchoiceUpdateDuration]
  · intro result e ht
    rw [getPayload_transport_error]
    exact ⟨by simp [EngineClient.timeoutCounters, ht, Metrics.incrementGetPayloadTimeout,
      Metrics.measureGetPayloadDuration], rfl, hne e⟩
  · intro e ht
    refine ⟨?_, ?_, ?_⟩
    · intro result
      rw [newPayload_transport_error]
      simp [EngineClient.timeoutCounters, ht, Metrics.measureNewPayloadDuration]
    · intro result
      obtain ⟨_, h2, _⟩ := forkchoiceUpdated_transport_error h s attrs result e
      simp [EngineClient.timeoutCounters, h2, ht, Metrics.measureForkchoiceUpdateDuration]
    · intro result
      rw [getPayload_transport_error]
      simp [EngineClient.timeoutCounters, ht, Metrics.measureGetPayloadDuration]
  · intro result
    simp [EngineClient.timeoutCounters, newPayload_no_transport_error,
      Metrics.measureNewPayloadDuration]
  · intro result
    simp [EngineClient.timeoutCounters, forkchoiceUpdated_no_transport_error,
      Metrics.measureForkchoiceUpdateDuration]
  · intro result
    simp [EngineClient.timeoutCounters, getPayload_no_transport_error,
      Metrics.measureGetPayloadDuration]

/-- C8 at a concrete run: `NewPayload` on a fresh client, the transport failing
with an error that wraps `ErrEngineAPITimeout`, the classifier of the
specification. -/
theorem timeout_increments_own_counter_witness :
    (∀ e, (specHelpers []).handleRPCError e ≠ none) ∧
      errorsIs (GoError.wrap "post" GoError.ErrEngineAPITimeout)
        GoError.ErrEngineAPITimeout = true ∧
      (EngineClient.fresh.NewPayload (specHelpers [])
          (none, some (GoError.wrap "post" GoError.ErrEngineAPITimeout))).2.timeoutCounters =
        (1, 0, 0) ∧
      (EngineClient.fresh.NewPayload (specHelpers [])
          (none, some (GoError.wrap "post" GoError.ErrEngineAPITimeout))).1.2 ≠ none :=
  ⟨handleRPCError_ne_none, by decide,
    ((timeout_increments_own_counter (specHelpers []) EngineClient.fresh none
      handleRPCError_ne_none).1 none (GoError.wrap "post" GoError.ErrEngineAPITimeout)
      (by decide)).1,
    ((timeout_increments_own_counter (specHelpers []) EngineClient.fresh none
      handleRPCError_ne_none).1 none (GoError.wrap "post" GoError.ErrEngineAPITimeout)
      (by decide)).2.2⟩

/-! ## ExchangeCapabilities and transport errors -/

theorem exchangeCapabilities_transport_error (h : Helpers) (s : EngineClient)
    (result : Option (List String)) (e : GoError) :
    s.ExchangeCapabilities h (result, some e) = ((none, some e), s) := rfl

/-- C9 (the code departs from it): `ExchangeCapabilities` on a fresh client, the
transport failing with the error "connection refused": the caller gets the raw
transport error, `handleRPCError` is not called, and the raw error is not what
the classifier of the specification gives for it; `NewPayload` on the same
transport error returns the classifier's output. -/
theorem exchangeCapabilities_returns_raw_transport_error :
    (EngineClient.fresh.ExchangeCapabilities (specHelpers ["A"])
        (none, some (GoError.other "connection refused"))).1 =
        (none, some (GoError.other "connection refused")) ∧
      (EngineClient.fresh.ExchangeCapabilities (specHelpers ["A"])
        (none, some (GoError.other "connection refused"))).2.calls = [] ∧
      (specHelpers ["A"]).handleRPCError (GoError.other "connection refused") ≠
        some (GoError.other "connection refused") ∧
      (EngineClient.fresh.NewPayload (specHelpers ["A"])
        (none, some (GoError.other "connection refused"))).1 =
        (none, (specHelpers ["A"]).handleRPCError (GoError.other "connection refused")) ∧
      (EngineClient.fresh.NewPayload (specHelpers ["A"])
        (none, some (GoError.other "connection refused"))).2.calls =
        [HelperCall.handleRPCError (GoError.other "connection refused")] := by
  decide

/-! ## Consolidation requests -/

theorem decodeItems_consolidation (blobs : List (List Byte))
    (hall : ∀ b ∈ blobs, b.length = sszConsolidationRequestSize) :
    ∃ items, decodeItems decodeConsolidationRequest blobs = (some items, none) ∧
      items.length = blobs.length := by
  induction blobs with
  | nil => exact ⟨[], rfl, rfl⟩
  | cons b rest ih =>
      obtain ⟨items, hitems, hlen⟩ := ih (fun x hx => hall x (List.mem_cons_of_mem b hx))
      have hb : b.length = sszConsolidationRequestSize := hall b (List.mem_cons_self b rest)
      refine ⟨{ SourceAddress := b.take executionAddressSize
                SourcePubKey := (b.drop executionAddressSize).take blsPubkeySize
                TargetPubKey :=
                  (b.drop (executionAddressSize + blsPubkeySize)).take blsPubkeySize } ::
        items, ?_, by simp [hlen]⟩
      simp [decodeItems, decodeConsolidationRequest, hb, hitems]

theorem unmarshalItems_consolidation (data : List Byte)
    (hmod : data.length % sszConsolidationRequestSize = 0) :
    ∃ items, UnmarshalItemsEIP7685 data sszConsolidationRequestSize
        decodeConsolidationRequest = (some items, none) ∧
      items.length = data.length / sszConsolidationRequestSize := by
  have hall : ∀ b ∈ (List.range (data.length / sszConsolidationRequestSize)).map
      (fun i => (data.drop (i * sszConsolidationRequestSize)).take
        sszConsolidationRequestSize), b.length = sszConsolidationRequestSize := by
    intro b hb
    obtain ⟨i, hi, rfl⟩ := List.mem_map.mp hb
    rw [List.mem_range] at hi
    simp only [sszConsolidationRequestSize] at hi hmod ⊢
    rw [List.length_take, List.length_drop]
    omega
  obtain ⟨items, hitems, hlen⟩ := decodeItems_consolidation _ hall
  refine ⟨items, ?_, by simpa using hlen⟩
  simp [UnmarshalItemsEIP7685, hmod, hitems]

theorem decodeConsolidationRequests_ok (maxPerPayload : Nat) (data : List Byte)
    (hpos : 0 < data.length) (hdvd : sszConsolidationRequestSize ∣ data.length)
    (hmax : data.length ≤ maxPerPayload * sszConsolidationRequestSize) :
    ∃ items, DecodeConsolidationRequests maxPerPayload data = (some items, none) ∧
      items.length = data.length / sszConsolidationRequestSize ∧
      1 ≤ items.length ∧ items.length ≤ maxPerPayload ∧
      ConsolidationRequests.ValidateAfterDecodingSSZ maxPerPayload items = none := by
  have hmod : data.length % sszConsolidationRequestSize = 0 := Nat.mod_eq_zero_of_dvd hdvd
  obtain ⟨items, hitems, hlen⟩ := unmarshalItems_consolidation data hmod
  have hsz : sszConsolidationRequestSize = 116 := rfl
  have hge : sszConsolidationRequestSize ≤ data.length := Nat.le_of_dvd hpos hdvd
  have h1 : 1 ≤ items.length := by
    rw [hlen, hsz]
    rw [hsz] at hge
    omega
  have h2 : items.length ≤ maxPerPayload := by
    rw [hlen]
    exact Nat.div_le_of_le_mul (by rw [Nat.mul_comm]; exact hmax)
  refine ⟨items, ?_, hlen, h1, h2, ?_⟩
  · simp only [DecodeConsolidationRequests]
    rw [if_neg (by omega), if_neg (by omega), if_neg (by simp [hmod])]
    exact hitems
  · simp [ConsolidationRequests.ValidateAfterDecodingSSZ, h2]

theorem decodeConsolidationRequests_error (maxPerPayload : Nat) (data : List Byte)
    (hnot : ¬ (0 < data.length ∧ sszConsolidationRequestSize ∣ data.length ∧
      data.length ≤ maxPerPayload * sszConsolidationRequestSize)) :
    ∃ e, DecodeConsolidationRequests maxPerPayload data = (none, some e) := by
  simp only [DecodeConsolidationRequests]
  by_cases h1 : data.length > maxPerPayload * sszConsolidationRequestSize
  · rw [if_pos h1]
    exact ⟨_, rfl⟩
  · rw [if_neg h1]
    by_cases h2 : data.length < sszConsolidationRequestSize
    · rw [if_pos h2]
      exact ⟨_, rfl⟩
    · rw [if_neg h2]
      by_cases h3 : data.length % sszConsolidationRequestSize ≠ 0
      · rw [if_pos h3]
        exact ⟨_, rfl⟩
      · exfalso
        apply hnot
        have hsz : sszConsolidationRequestSize = 116 := rfl
        refine ⟨by omega, Nat.dvd_of_mod_eq_zero (by simpa using h3), by omega⟩

/-- C10: `DecodeConsolidationRequests` succeeds if and only if `len(data)` is a
positive multiple of 116 that is at most `MaxConsolidationRequestsPerPayload *
116`; every other input, the empty byte string included, is rejected with an
error and a nil list. A successfully returned list has `len(data)/116` entries,
between 1 and `MaxConsolidationRequestsPerPayload`, and passes
`ValidateAfterDecodingSSZ`. The item size 116 is 20 + 48 + 48, the sizes of the
three fields. -/
theorem decodeConsolidationRequests_length_validation (maxPerPayload : Nat)
    (data : List Byte) :
    ((∃ items, DecodeConsolidationRequests maxPerPayload data = (some items, none)) ↔
        0 < data.length ∧ sszConsolidationRequestSize ∣ data.length ∧
          data.length ≤ maxPerPayload * sszConsolidationRequestSize) ∧
      ((¬ ∃ items, DecodeConsolidationRequests maxPerPayload data = (some items, none)) ↔
        ∃ e, DecodeConsolidationRequests maxPerPayload data = (none, some e)) ∧
      (∃ e, DecodeConsolidationRequests maxPerPayload [] = (none, some e)) ∧
      (0 < data.length ∧ sszConsolidationRequestSize ∣ data.length ∧
          data.length ≤ maxPerPayload * sszConsolidationRequestSize →
        DecodeConsolidationRequests maxPerPayload data =
          UnmarshalItemsEIP7685 data sszConsolidationRequestSize
            decodeConsolidationRequest) ∧
      (∀ items, DecodeConsolidationRequests maxPerPayload data = (some items, none) →
        items.length = data.length / sszConsolidationRequestSize ∧
          1 ≤ items.length ∧ items.length ≤ maxPerPayload ∧
          ConsolidationRequests.ValidateAfterDecodingSSZ maxPerPayload items = none) ∧
      sszConsolidationRequestSize = 116 ∧
      sszConsolidationRequestSize = definedSSZSize ∧
      definedSSZSize = 20 + 48 + 48 := by
  have hiff : (∃ items, DecodeConsolidationRequests maxPerPayload data = (some items, none)) ↔
        0 < data.length ∧ sszConsolidationRequestSize ∣ data.length ∧
          data.length ≤ maxPerPayload * sszConsolidationRequestSize := by
    constructor
    · rintro ⟨items, hitems⟩
      by_contra hnot
      obtain ⟨e, he⟩ := decodeConsolidationRequests_error maxPerPayload data hnot
      rw [he] at hitems
      simp at hitems
    · rintro ⟨hpos, hdvd, hmax⟩
      obtain ⟨items, hitems, _⟩ :=
        decodeConsolidationRequests_ok maxPerPayload data hpos hdvd hmax
      exact ⟨items, hitems⟩
  refine ⟨hiff, ?_, ?_, ?_, ?_, rfl, rfl, rfl⟩
  · constructor
    · intro hno
      exact decodeConsolidationRequests_error maxPerPayload data
        (fun hc => hno (hiff.mpr hc))
    · rintro ⟨e, he⟩ ⟨items, hitems⟩
      rw [he] at hitems
      simp at hitems
  · exact decodeConsolidationRequests_error maxPerPayload [] (by simp)
  · rintro ⟨hpos, hdvd, hmax⟩
    have hsz : sszConsolidationRequestSize = 116 := rfl
    have hge : sszConsolidationRequestSize ≤ data.length := Nat.le_of_dvd hpos hdvd
    have hmod : data.length % sszConsolidationRequestSize = 0 := Nat.mod_eq_zero_of_dvd hdvd
    simp only [DecodeConsolidationRequests]
    rw [if_neg (by omega), if_neg (by omega), if_neg (by simp [hmod])]
  · intro items hitems
    obtain ⟨hpos, hdvd, hmax⟩ := hiff.mp ⟨items, hitems⟩
    obtain ⟨items2, hitems2, hprops⟩ :=
      decodeConsolidationRequests_ok maxPerPayload data hpos hdvd hmax
    rw [hitems] at hitems2
    have : items = items2 := by simpa using hitems2
    subst this
    exact hprops

end BeaconKit
